import Mathlib

/-!
Verification development for the `openrouteservice-examples` notebooks.

The Python notebooks are shallowly embedded: each loop that a claim talks
about becomes a Lean function on an explicit state, numeric response values
become rationals, and fallible operations (API calls that may raise, list
indexing, `min` of a possibly empty list) become `Option`-valued functions.
-/

namespace ORSExamples

/-! ## Health_Care_Access_Madagascar.py — isochrone request loops

The car loop (lines 185–204) and the foot loop (lines 225–243) have the
same shape: for every facility an isochrone request is sent inside a
`try` block; on success `request_counter` is incremented, the isochrone
polygon is appended to the result list, and `time.sleep(60)` runs whenever
`len(iso_list) % 39 == 0`; any exception is swallowed by `except: pass`.
An iteration can fail in two places: the request itself may raise
(`requestError`, before `request_counter += 1`), or extracting
`request['features'][0]['geometry']` may raise (`parseError`, after the
counter increment but before the append). -/

/-- Outcome of one iteration of an isochrone request loop. -/
inductive IsoOutcome where
  | requestError : IsoOutcome
  | parseError : IsoOutcome
  | ok : IsoOutcome
deriving DecidableEq, Repr

/-- The request parameters built for each facility (`iso_params`). They
select the profile but do not influence the control flow of the loop. -/
structure IsoParams where
  profile : String
  rangeType : String
  segments : Nat
deriving DecidableEq, Repr

/-- `iso_params` of the car loop. -/
def carIsoParams : IsoParams :=
  { profile := "driving-car", rangeType := "time", segments := 3600 }

/-- `iso_params` of the foot loop. -/
def footIsoParams : IsoParams :=
  { profile := "foot-walking", rangeType := "time", segments := 3600 }

/-- Observable state of an isochrone request loop:
`requestsSent` counts calls of `ors.isochrones` (one per iteration),
`requestCounter` is the script's `request_counter`,
`isoCount` is `len(iso_car)` resp. `len(iso_foot)`, and
`sleeps` counts executions of `time.sleep(60)`. -/
structure IsoLoopState where
  requestsSent : Nat
  requestCounter : Nat
  isoCount : Nat
  sleeps : Nat
deriving DecidableEq, Repr

/-- State before the loop: counters at zero, empty isochrone list. -/
def initIsoLoopState : IsoLoopState :=
  { requestsSent := 0, requestCounter := 0, isoCount := 0, sleeps := 0 }

/-- One iteration of the loop body, following the `try`/`except` block:
a raised exception aborts the rest of the body and is swallowed. -/
def isoStep (s : IsoLoopState) (o : IsoOutcome) : IsoLoopState :=
  match o with
  | .requestError =>
      { s with requestsSent := s.requestsSent + 1 }
  | .parseError =>
      { s with requestsSent := s.requestsSent + 1,
               requestCounter := s.requestCounter + 1 }
  | .ok =>
      { s with requestsSent := s.requestsSent + 1,
               requestCounter := s.requestCounter + 1,
               isoCount := s.isoCount + 1,
               sleeps := if (s.isoCount + 1) % 39 = 0 then s.sleeps + 1 else s.sleeps }

/-- The whole loop over the facilities, given the outcome of each
iteration.  The parameters (car or foot) do not affect the dynamics. -/
def runIsoLoop (_params : IsoParams) (outs : List IsoOutcome) : IsoLoopState :=
  outs.foldl isoStep initIsoLoopState

/-- Number of iterations whose isochrone was successfully appended. -/
def countOk : List IsoOutcome → Nat
  | [] => 0
  | .ok :: rest => countOk rest + 1
  | .requestError :: rest => countOk rest
  | .parseError :: rest => countOk rest

lemma isoStep_requestsSent (s : IsoLoopState) (o : IsoOutcome) :
    (isoStep s o).requestsSent = s.requestsSent + 1 := by
  cases o <;> rfl

lemma isoStep_isoCount (s : IsoLoopState) (o : IsoOutcome) :
    (isoStep s o).isoCount = if o = .ok then s.isoCount + 1 else s.isoCount := by
  cases o <;> rfl

lemma isoStep_sleeps_invariant (s : IsoLoopState) (o : IsoOutcome)
    (h : s.sleeps = s.isoCount / 39) :
    (isoStep s o).sleeps = (isoStep s o).isoCount / 39 := by
  cases o with
  | requestError => simpa [isoStep] using h
  | parseError => simpa [isoStep] using h
  | ok =>
      simp only [isoStep]
      rw [Nat.succ_div]
      by_cases hmod : (s.isoCount + 1) % 39 = 0
      · have hdvd : 39 ∣ s.isoCount + 1 := Nat.dvd_iff_mod_eq_zero.mpr hmod
        simp [hmod, hdvd, h]
      · have hdvd : ¬ 39 ∣ s.isoCount + 1 := fun hd => hmod (Nat.dvd_iff_mod_eq_zero.mp hd)
        simp [hmod, hdvd, h]

lemma isoLoop_aux (outs : List IsoOutcome) : ∀ s : IsoLoopState,
    (outs.foldl isoStep s).requestsSent = s.requestsSent + outs.length ∧
    (outs.foldl isoStep s).isoCount = s.isoCount + countOk outs ∧
    (s.sleeps = s.isoCount / 39 →
      (outs.foldl isoStep s).sleeps = (outs.foldl isoStep s).isoCount / 39) := by
  induction outs with
  | nil => intro s; exact ⟨rfl, rfl, fun h => h⟩
  | cons o rest ih =>
      intro s
      obtain ⟨h1, h2, h3⟩ := ih (isoStep s o)
      refine ⟨?_, ?_, ?_⟩
      · simp only [List.foldl_cons, h1, isoStep_requestsSent, List.length_cons]
        omega
      · simp only [List.foldl_cons, h2, isoStep_isoCount]
        cases o <;> simp [countOk]
        all_goals omega
      · intro h
        exact h3 (isoStep_sleeps_invariant s o h)

/-- Claim C1 (amended): in the Madagascar isochrone request loops (car and
foot), for every prefix of the loop the number of 60-second sleeps
performed equals the number of complete groups of 39 *successfully
appended* isochrones, not of requests issued: `time.sleep(60)` is guarded
by `len(iso_car) % 39 == 0`, and the list only grows on success. -/
theorem iso_sleeps_count_successful_groups (params : IsoParams) (outs : List IsoOutcome) :
    (runIsoLoop params outs).sleeps = countOk outs / 39 ∧
    (runIsoLoop params outs).isoCount = countOk outs := by
  obtain ⟨_, h2, h3⟩ := isoLoop_aux outs initIsoLoopState
  have hs := h3 rfl
  have h0 : initIsoLoopState.isoCount = 0 := rfl
  rw [h0, Nat.zero_add] at h2
  exact ⟨by rw [runIsoLoop, hs, h2], by rw [runIsoLoop, h2]⟩

/-- Iteration outcomes refuting claim C1: the very first request fails,
the following 38 succeed. -/
def c1Outcomes : List IsoOutcome :=
  IsoOutcome.requestError :: List.replicate 38 IsoOutcome.ok

/-- Claim C1 counterexample: after these 39 iterations, 39 requests have
been issued — one complete group of 39 — but no sleep was performed,
because only 38 isochrones were appended.  The number of sleeps is *not*
the number of complete groups of issued requests. -/
theorem c1_sleeps_ne_issued_groups :
    (runIsoLoop carIsoParams c1Outcomes).requestsSent = 39 ∧
    (runIsoLoop carIsoParams c1Outcomes).sleeps = 0 ∧
    ¬ (runIsoLoop carIsoParams c1Outcomes).sleeps
        = (runIsoLoop carIsoParams c1Outcomes).requestsSent / 39 := by
  refine ⟨by decide, by decide, by decide⟩

/-- Claim C3 (amended): the repository's request loops do not retry: each
facility's isochrone request is issued exactly once per iteration,
whether it succeeds or fails; a failed request is skipped, never
re-issued.  (Retrying after rate limiting happens only inside the
third-party client library.) -/
theorem iso_requests_never_reissued (params : IsoParams) (outs : List IsoOutcome) :
    (runIsoLoop params outs).requestsSent = outs.length := by
  obtain ⟨h1, _, _⟩ := isoLoop_aux outs initIsoLoopState
  simpa [runIsoLoop, initIsoLoopState] using h1

/-- Claim C3 counterexample: a run whose single request fails issues
exactly one request — the failed call is not re-issued by the loop (a
retry would mean at least two issues). -/
theorem c3_failed_request_not_reissued :
    (runIsoLoop carIsoParams [IsoOutcome.requestError]).requestsSent = 1 ∧
    ¬ 2 ≤ (runIsoLoop carIsoParams [IsoOutcome.requestError]).requestsSent := by
  refine ⟨by decide, by decide⟩

/-! ## Health_Care_Access_Madagascar.py — access-percentage loops

Lines 350–375: two loops (car, then foot) walk over the zonal-statistics
records of the per-district isochrone shapefiles and update
`districts_dictionary`.  Each record is attributed to a district id (via
`car_iso_district_dict` / `foot_iso_district_dict`; within a run every
`fid` of the statistics is a key of that dictionary, both being built
from the same shapefile enumeration, so the lookup is resolved in the
embedding).  Inside a `try` block the loop first assigns
`'… Pop. with access' = pop_iso` and then
`'… Pop. with access [%]' = 100 * pop_iso / pop_total`; a bare `except:
pass` swallows any exception, in particular the `ZeroDivisionError`
raised by the percentage when `pop_total` is 0 — after the count was
already assigned.  Numeric values are modelled as rationals. -/

/-- Zonal-statistics record: attributed district id and its `'sum'`. -/
structure ZonalRecord where
  districtId : Nat
  sum : ℚ
deriving DecidableEq

/-- The pair of access fields of one profile in `districts_dictionary`. -/
structure AccessStats where
  popAccess : ℚ
  popAccessPct : ℚ
deriving DecidableEq

/-- One entry of `districts_dictionary`. -/
structure DistrictEntry where
  districtCode : String
  districtName : String
  popCount : ℚ
  car : AccessStats
  foot : AccessStats
deriving DecidableEq

/-- Which of the two access-percentage loops is running. -/
inductive Profile where
  | car : Profile
  | foot : Profile
deriving DecidableEq

/-- The access fields a profile's loop reads and writes. -/
def DistrictEntry.stats (e : DistrictEntry) : Profile → AccessStats
  | .car => e.car
  | .foot => e.foot

/-- Replace the access fields of one profile, leaving the rest alone. -/
def DistrictEntry.setStats (e : DistrictEntry) : Profile → AccessStats → DistrictEntry
  | .car, s => { e with car := s }
  | .foot, s => { e with foot := s }

/-- Pointwise update of the dictionary at one district id. -/
def updD (d : Nat → DistrictEntry) (i : Nat) (e : DistrictEntry) : Nat → DistrictEntry :=
  fun j => if j = i then e else d j

/-- Body of the loop for one record, mirroring the `try`/`except` block:
when `pop_total` is 0 the percentage assignment raises and is swallowed,
but the count assignment before it has already happened. -/
def statsStep (p : Profile) (d : Nat → DistrictEntry) (r : ZonalRecord) :
    Nat → DistrictEntry :=
  let e := d r.districtId
  let popIso := (e.stats p).popAccess + r.sum
  let popTotal := e.popCount
  if popTotal = 0 then
    updD d r.districtId (e.setStats p { e.stats p with popAccess := popIso })
  else
    updD d r.districtId
      (e.setStats p { popAccess := popIso, popAccessPct := 100 * popIso / popTotal })

/-- The whole loop over the zonal-statistics records. -/
def statsLoop (p : Profile) (d : Nat → DistrictEntry) :
    List ZonalRecord → (Nat → DistrictEntry)
  | [] => d
  | r :: rs => statsLoop p (statsStep p d r) rs

/-- Records of a statistics list attributed to district `D`. -/
def recordsFor (D : Nat) (rs : List ZonalRecord) : List ZonalRecord :=
  rs.filter fun r => decide (r.districtId = D)

lemma recordsFor_cons_self (D : Nat) (r : ZonalRecord) (rs : List ZonalRecord)
    (h : r.districtId = D) : recordsFor D (r :: rs) = r :: recordsFor D rs := by
  simp [recordsFor, List.filter_cons, h]

lemma recordsFor_cons_other (D : Nat) (r : ZonalRecord) (rs : List ZonalRecord)
    (h : r.districtId ≠ D) : recordsFor D (r :: rs) = recordsFor D rs := by
  simp [recordsFor, List.filter_cons, h]

lemma stats_setStats_same (e : DistrictEntry) (p : Profile) (s : AccessStats) :
    (e.setStats p s).stats p = s := by
  cases p <;> rfl

lemma popCount_setStats (e : DistrictEntry) (p : Profile) (s : AccessStats) :
    (e.setStats p s).popCount = e.popCount := by
  cases p <;> rfl

lemma updD_same (d : Nat → DistrictEntry) (i : Nat) (e : DistrictEntry) :
    updD d i e i = e := by
  simp [updD]

lemma updD_other (d : Nat → DistrictEntry) (i j : Nat) (e : DistrictEntry)
    (h : j ≠ i) : updD d i e j = d j := by
  simp [updD, h]

lemma statsStep_other (p : Profile) (d : Nat → DistrictEntry) (r : ZonalRecord)
    (D : Nat) (h : r.districtId ≠ D) : statsStep p d r D = d D := by
  unfold statsStep
  by_cases h0 : (d r.districtId).popCount = 0 <;>
    simp [h0, updD_other _ _ _ _ (Ne.symm h)]

lemma statsStep_popCount (p : Profile) (d : Nat → DistrictEntry) (r : ZonalRecord)
    (D : Nat) : (statsStep p d r D).popCount = (d D).popCount := by
  by_cases h : r.districtId = D
  · subst h
    unfold statsStep
    by_cases h0 : (d r.districtId).popCount = 0 <;>
      simp [h0, updD_same, popCount_setStats]
  · rw [statsStep_other p d r D h]

lemma statsStep_same_popAccess (p : Profile) (d : Nat → DistrictEntry)
    (r : ZonalRecord) :
    ((statsStep p d r r.districtId).stats p).popAccess
      = ((d r.districtId).stats p).popAccess + r.sum := by
  unfold statsStep
  by_cases h : (d r.districtId).popCount = 0 <;>
    simp [h, updD_same, stats_setStats_same]

lemma statsStep_same_zero_pct (p : Profile) (d : Nat → DistrictEntry)
    (r : ZonalRecord) (h : (d r.districtId).popCount = 0) :
    ((statsStep p d r r.districtId).stats p).popAccessPct
      = ((d r.districtId).stats p).popAccessPct := by
  unfold statsStep
  simp [h, updD_same, stats_setStats_same]

lemma statsStep_same_nonzero_pct (p : Profile) (d : Nat → DistrictEntry)
    (r : ZonalRecord) (h : (d r.districtId).popCount ≠ 0) :
    ((statsStep p d r r.districtId).stats p).popAccessPct
      = 100 * (((d r.districtId).stats p).popAccess + r.sum)
          / (d r.districtId).popCount := by
  unfold statsStep
  simp [h, updD_same, stats_setStats_same]

lemma statsLoop_popCount (p : Profile) (rs : List ZonalRecord) :
    ∀ d : Nat → DistrictEntry, ∀ D : Nat,
    (statsLoop p d rs D).popCount = (d D).popCount := by
  induction rs with
  | nil => intro d D; rfl
  | cons r rs ih =>
      intro d D
      rw [statsLoop, ih, statsStep_popCount]

lemma statsLoop_popAccess (p : Profile) (rs : List ZonalRecord) :
    ∀ d : Nat → DistrictEntry, ∀ D : Nat,
    ((statsLoop p d rs D).stats p).popAccess
      = ((d D).stats p).popAccess + ((recordsFor D rs).map ZonalRecord.sum).sum := by
  induction rs with
  | nil => intro d D; simp [statsLoop, recordsFor]
  | cons r rs ih =>
      intro d D
      rw [statsLoop, ih]
      by_cases h : r.districtId = D
      · subst h
        rw [recordsFor_cons_self _ r rs rfl, List.map_cons, List.sum_cons,
          statsStep_same_popAccess]
        ring
      · rw [statsStep_other p d r D h, recordsFor_cons_other D r rs h]

lemma statsLoop_pct_zero (p : Profile) (rs : List ZonalRecord) :
    ∀ d : Nat → DistrictEntry, ∀ D : Nat, (d D).popCount = 0 →
    ((statsLoop p d rs D).stats p).popAccessPct = ((d D).stats p).popAccessPct := by
  induction rs with
  | nil => intro d D _; rfl
  | cons r rs ih =>
      intro d D h0
      rw [statsLoop]
      have hpc : (statsStep p d r D).popCount = 0 := by
        rw [statsStep_popCount]; exact h0
      rw [ih _ D hpc]
      by_cases h : r.districtId = D
      · subst h
        rw [statsStep_same_zero_pct p d r h0]
      · rw [statsStep_other p d r D h]

lemma statsLoop_untouched (p : Profile) (rs : List ZonalRecord) :
    ∀ d : Nat → DistrictEntry, ∀ D : Nat, recordsFor D rs = [] →
    statsLoop p d rs D = d D := by
  induction rs with
  | nil => intro d D _; rfl
  | cons r rs ih =>
      intro d D hnil
      by_cases h : r.districtId = D
      · rw [recordsFor_cons_self D r rs h] at hnil
        exact absurd hnil (List.cons_ne_nil r _)
      · rw [recordsFor_cons_other D r rs h] at hnil
        rw [statsLoop, ih _ D hnil, statsStep_other p d r D h]

lemma statsLoop_pct_nonzero (p : Profile) (rs : List ZonalRecord) :
    ∀ d : Nat → DistrictEntry, ∀ D : Nat,
    (d D).popCount ≠ 0 → recordsFor D rs ≠ [] →
    ((statsLoop p d rs D).stats p).popAccessPct
      = 100 * (((d D).stats p).popAccess + ((recordsFor D rs).map ZonalRecord.sum).sum)
          / (d D).popCount := by
  induction rs with
  | nil => intro d D _ hne; exact absurd rfl hne
  | cons r rs ih =>
      intro d D hpop hne
      rw [statsLoop]
      by_cases h : r.districtId = D
      · subst h
        have hpc : (statsStep p d r r.districtId).popCount
            = (d r.districtId).popCount := statsStep_popCount p d r r.districtId
        rw [recordsFor_cons_self _ r rs rfl, List.map_cons, List.sum_cons]
        by_cases htail : recordsFor r.districtId rs = []
        · rw [statsLoop_untouched p rs _ _ htail,
            statsStep_same_nonzero_pct p d r hpop, htail]
          simp only [List.map_nil, List.sum_nil, add_zero]
        · have hrec := ih (statsStep p d r) r.districtId (by rw [hpc]; exact hpop) htail
          rw [hrec, hpc, statsStep_same_popAccess]
          ring
      · have hne' : recordsFor D rs ≠ [] := by
          rw [recordsFor_cons_other D r rs h] at hne
          exact hne
        have hrec := ih (statsStep p d r) D
          (by rw [statsStep_popCount]; exact hpop) hne'
        rw [hrec, statsStep_popCount, statsStep_other p d r D h,
          recordsFor_cons_other D r rs h]

/-- Claim C4: for every district `D` that receives at least one
zonal-statistics record for a profile (car or foot) and whose
`Population Count` is nonzero, the final percentage field of that
profile equals 100 times the sum of the `'sum'` values of all records
attributed to `D`, divided by the district's `Population Count`.  (At
the start of the loop `'… Pop. with access'` is still 0 from the
creation of `districts_dictionary`.) -/
theorem access_pct_formula (p : Profile) (d0 : Nat → DistrictEntry)
    (rs : List ZonalRecord) (D : Nat)
    (hacc : ((d0 D).stats p).popAccess = 0)
    (hpop : (d0 D).popCount ≠ 0)
    (hrec : recordsFor D rs ≠ []) :
    ((statsLoop p d0 rs D).stats p).popAccessPct
      = 100 * ((recordsFor D rs).map ZonalRecord.sum).sum / (d0 D).popCount := by
  rw [statsLoop_pct_nonzero p rs d0 D hpop hrec, hacc, zero_add]

/-- Claim C8: a district update is not atomic on error.  When a
district's `Population Count` is 0, the percentage computation raises
`ZeroDivisionError`, the bare `except` swallows it and the loop
continues with the remaining records, yet the absolute
`'… Pop. with access'` count has already been assigned the accumulated
value while the `'… [%]'` field keeps its previous value. -/
theorem access_update_not_atomic (p : Profile) (d0 : Nat → DistrictEntry)
    (rs : List ZonalRecord) (D : Nat)
    (hzero : (d0 D).popCount = 0) :
    ((statsLoop p d0 rs D).stats p).popAccess
        = ((d0 D).stats p).popAccess + ((recordsFor D rs).map ZonalRecord.sum).sum ∧
    ((statsLoop p d0 rs D).stats p).popAccessPct = ((d0 D).stats p).popAccessPct := by
  exact ⟨statsLoop_popAccess p rs d0 D, statsLoop_pct_zero p rs d0 D hzero⟩

/-- Concrete dictionary for the witnesses below: district 0 has
population count 0 and some leftover field values, district 1 has
population count 200. -/
def witnessDict : Nat → DistrictEntry :=
  fun j =>
    if j = 0 then
      { districtCode := "MG11", districtName := "A", popCount := 0,
        car := { popAccess := 5, popAccessPct := 7 },
        foot := { popAccess := 0, popAccessPct := 0 } }
    else
      { districtCode := "MG12", districtName := "B", popCount := 200,
        car := { popAccess := 0, popAccessPct := 0 },
        foot := { popAccess := 0, popAccessPct := 0 } }

/-- Witness for `access_pct_formula`: district 1 (population 200)
receives records with sums 30 and 50; its final car percentage is
100 · 80 / 200 = 40. -/
theorem access_pct_formula_witness :
    ((witnessDict 1).stats Profile.car).popAccess = 0 ∧
    (witnessDict 1).popCount ≠ 0 ∧
    recordsFor 1 [⟨1, 30⟩, ⟨0, 11⟩, ⟨1, 50⟩] ≠ [] ∧
    ((statsLoop Profile.car witnessDict [⟨1, 30⟩, ⟨0, 11⟩, ⟨1, 50⟩] 1).stats
        Profile.car).popAccessPct
      = 100 * ((recordsFor 1 [⟨1, 30⟩, ⟨0, 11⟩, ⟨1, 50⟩]).map ZonalRecord.sum).sum
          / (witnessDict 1).popCount := by
  refine ⟨by norm_num [witnessDict, DistrictEntry.stats], by norm_num [witnessDict],
    by simp [recordsFor], ?_⟩
  exact access_pct_formula Profile.car witnessDict [⟨1, 30⟩, ⟨0, 11⟩, ⟨1, 50⟩] 1
    (by norm_num [witnessDict, DistrictEntry.stats]) (by norm_num [witnessDict])
    (by simp [recordsFor])

/-- Witness for `access_update_not_atomic`: district 0 (population 0)
receives a record with sum 3; its car count becomes 5 + 3 while its car
percentage stays 7. -/
theorem access_update_not_atomic_witness :
    (witnessDict 0).popCount = 0 ∧
    (((statsLoop Profile.car witnessDict [⟨0, 3⟩] 0).stats Profile.car).popAccess
        = ((witnessDict 0).stats Profile.car).popAccess
            + ((recordsFor 0 [⟨0, 3⟩]).map ZonalRecord.sum).sum ∧
      ((statsLoop Profile.car witnessDict [⟨0, 3⟩] 0).stats Profile.car).popAccessPct
        = ((witnessDict 0).stats Profile.car).popAccessPct) := by
  exact ⟨by norm_num [witnessDict],
    access_update_not_atomic Profile.car witnessDict [⟨0, 3⟩] 0
      (by norm_num [witnessDict])⟩

/-! ## Ahrtal-Avoid-Areas.py — routing loop over affected places

Lines 166–191: `for i, p in affected_places.iterrows()` first requests
the pre-flood route (outside any `try`), then inside `try` the
avoid-polygons route; `except ApiError` prints
`f"No route found for {p['name']}"` and `continue`s, so that neither
list is appended for that place; otherwise the avoiding entry and the
normal entry are appended (in this order), both carrying the same
`name` and `id`.  A raised error on the *pre-flood* request is not
caught and would abort the loop; the embedding models it by a `crashed`
flag that freezes the state. -/

/-- Payload of a successful directions response (the GeoDataFrame built
from it); downstream only the summary duration is used. -/
structure RouteFeature where
  duration : ℚ
deriving DecidableEq

/-- One `affected_places` row: its name, its coordinates, and the
outcome of the two directions requests sent for it (`none` models a
raised `ApiError`). -/
structure AffectedPlace where
  name : String
  x : ℚ
  y : ℚ
  normal : Option RouteFeature
  flood : Option RouteFeature
deriving DecidableEq

/-- One entry of `normal_routes` / `avoiding_routes`: the response
dataframe with the place's `name` and `id` columns set. -/
structure RouteEntry where
  route : RouteFeature
  name : String
  id : Nat
deriving DecidableEq

/-- State of the routing loop. -/
structure AhrtalState where
  normalRoutes : List RouteEntry
  avoidingRoutes : List RouteEntry
  printed : List String
  crashed : Bool
deriving DecidableEq

/-- State before the loop: both route lists empty, nothing printed. -/
def initAhrtalState : AhrtalState :=
  { normalRoutes := [], avoidingRoutes := [], printed := [], crashed := false }

/-- One iteration of the loop for place `p` with dataframe index `i`. -/
def ahrtalStep (s : AhrtalState) (i : Nat) (p : AffectedPlace) : AhrtalState :=
  if s.crashed then s
  else
    match p.normal with
    | none => { s with crashed := true }
    | some nRoute =>
        match p.flood with
        | none =>
            { s with printed := s.printed ++ ["No route found for " ++ p.name] }
        | some fRoute =>
            { s with
              avoidingRoutes :=
                s.avoidingRoutes ++ [{ route := fRoute, name := p.name, id := i }],
              normalRoutes :=
                s.normalRoutes ++ [{ route := nRoute, name := p.name, id := i }] }

/-- The loop over the remaining places, `i` being the dataframe index of
the first of them. -/
def ahrtalRun (i : Nat) (ps : List AffectedPlace) (s : AhrtalState) : AhrtalState :=
  match ps with
  | [] => s
  | p :: rest => ahrtalRun (i + 1) rest (ahrtalStep s i p)

lemma ahrtalStep_printed_mono (s : AhrtalState) (i : Nat) (p : AffectedPlace)
    (m : String) (h : m ∈ s.printed) : m ∈ (ahrtalStep s i p).printed := by
  unfold ahrtalStep
  by_cases hc : s.crashed
  · simpa [hc] using h
  · cases hn : p.normal with
    | none => simpa [hc, hn] using h
    | some nr =>
        cases hf : p.flood with
        | none =>
            simp only [hc, if_false, hn, hf, Bool.false_eq_true]
            exact List.mem_append_left _ h
        | some fr => simpa [hc, hn, hf] using h

lemma ahrtalRun_printed_mono (ps : List AffectedPlace) :
    ∀ i s m, m ∈ s.printed → m ∈ (ahrtalRun i ps s).printed := by
  induction ps with
  | nil => intro i s m h; exact h
  | cons p rest ih =>
      intro i s m h
      exact ih (i + 1) _ m (ahrtalStep_printed_mono s i p m h)

lemma ahrtalStep_not_crashed (s : AhrtalState) (i : Nat) (p : AffectedPlace)
    (hc : s.crashed = false) (hn : p.normal.isSome) :
    (ahrtalStep s i p).crashed = false := by
  unfold ahrtalStep
  cases hno : p.normal with
  | none => rw [hno] at hn; exact absurd hn (by simp)
  | some nr =>
      cases hf : p.flood with
      | none => simp [hc, hno, hf]
      | some fr => simp [hc, hno, hf]

lemma ahrtalRun_message (ps : List AffectedPlace) :
    ∀ i s, s.crashed = false → (∀ q ∈ ps, q.normal.isSome) →
    ∀ k, ∀ hk : k < ps.length, (ps.get ⟨k, hk⟩).flood = none →
    ("No route found for " ++ (ps.get ⟨k, hk⟩).name) ∈ (ahrtalRun i ps s).printed := by
  induction ps with
  | nil => intro i s _ _ k hk; exact absurd hk (Nat.not_lt_zero k)
  | cons p rest ih =>
      intro i s hc hall k hk hfl
      cases k with
      | zero =>
          obtain ⟨nr, hnr⟩ := Option.isSome_iff_exists.mp (hall p (List.mem_cons_self p rest))
          have hfl' : p.flood = none := hfl
          have hstep : (ahrtalStep s i p).printed
              = s.printed ++ ["No route found for " ++ p.name] := by
            unfold ahrtalStep
            simp [hc, hnr, hfl']
          rw [ahrtalRun]
          apply ahrtalRun_printed_mono
          rw [hstep]
          exact List.mem_append_right _ (List.mem_singleton.mpr rfl)
      | succ k' =>
          have hc' := ahrtalStep_not_crashed s i p hc (hall p (List.mem_cons_self p rest))
          rw [ahrtalRun]
          exact ih (i + 1) _ hc' (fun q hq => hall q (List.mem_cons_of_mem p hq))
            k' (Nat.lt_of_succ_lt_succ hk) hfl

lemma ahrtalStep_no_entry (s : AhrtalState) (i : Nat) (p : AffectedPlace) (k : Nat)
    (hk : i = k → p.flood = none)
    (h1 : ∀ r ∈ s.normalRoutes, r.id ≠ k)
    (h2 : ∀ r ∈ s.avoidingRoutes, r.id ≠ k) :
    (∀ r ∈ (ahrtalStep s i p).normalRoutes, r.id ≠ k) ∧
    (∀ r ∈ (ahrtalStep s i p).avoidingRoutes, r.id ≠ k) := by
  unfold ahrtalStep
  by_cases hc : s.crashed
  · simpa [hc] using ⟨h1, h2⟩
  · cases hn : p.normal with
    | none => simpa [hc, hn] using ⟨h1, h2⟩
    | some nr =>
        cases hf : p.flood with
        | none => simpa [hc, hn, hf] using ⟨h1, h2⟩
        | some fr =>
            have hik : i ≠ k := fun he => by rw [hk he] at hf; exact Option.noConfusion hf
            simp only [hc, if_false, hn, hf, Bool.false_eq_true]
            constructor
            · intro r hr
              rcases List.mem_append.mp hr with h | h
              · exact h1 r h
              · rw [List.mem_singleton.mp h]
                exact hik
            · intro r hr
              rcases List.mem_append.mp hr with h | h
              · exact h2 r h
              · rw [List.mem_singleton.mp h]
                exact hik

lemma ahrtalRun_no_entry (ps : List AffectedPlace) :
    ∀ i s k, (∀ j, ∀ hj : j < ps.length, i + j = k → (ps.get ⟨j, hj⟩).flood = none) →
    (∀ r ∈ s.normalRoutes, r.id ≠ k) → (∀ r ∈ s.avoidingRoutes, r.id ≠ k) →
    (∀ r ∈ (ahrtalRun i ps s).normalRoutes, r.id ≠ k) ∧
    (∀ r ∈ (ahrtalRun i ps s).avoidingRoutes, r.id ≠ k) := by
  induction ps with
  | nil => intro i s k _ h1 h2; exact ⟨h1, h2⟩
  | cons p rest ih =>
      intro i s k hfl h1 h2
      rw [ahrtalRun]
      obtain ⟨h1', h2'⟩ := ahrtalStep_no_entry s i p k
        (fun he => hfl 0 (Nat.succ_pos _) (by omega)) h1 h2
      exact ih (i + 1) _ k
        (fun j hj hij => hfl (j + 1) (Nat.succ_lt_succ hj) (by omega)) h1' h2'

/-- Claim C2: in the Ahrtal routing loop, every place whose
avoid-polygons directions request raises an `ApiError` leads to a
printed `"No route found for …"` message and is skipped: the loop
continues with the next place and the final `normal_routes` and
`avoiding_routes` contain no entry for that place's index.  (The
hypothesis that the pre-flood requests succeed reflects that an error
there is uncaught.) -/
theorem ahrtal_apiError_place_skipped (places : List AffectedPlace) (k : Nat)
    (hk : k < places.length)
    (hall : ∀ q ∈ places, q.normal.isSome)
    (hfl : (places.get ⟨k, hk⟩).flood = none) :
    ("No route found for " ++ (places.get ⟨k, hk⟩).name)
        ∈ (ahrtalRun 0 places initAhrtalState).printed ∧
    (∀ r ∈ (ahrtalRun 0 places initAhrtalState).normalRoutes, r.id ≠ k) ∧
    (∀ r ∈ (ahrtalRun 0 places initAhrtalState).avoidingRoutes, r.id ≠ k) := by
  refine ⟨ahrtalRun_message places 0 initAhrtalState rfl hall k hk hfl, ?_⟩
  have hprem : ∀ j, ∀ hj : j < places.length, 0 + j = k →
      (places.get ⟨j, hj⟩).flood = none := by
    intro j hj hjk
    have : j = k := by omega
    subst this
    exact hfl
  obtain ⟨h1, h2⟩ := ahrtalRun_no_entry places 0 initAhrtalState k hprem
    (by intro r hr; exact absurd hr (List.not_mem_nil r))
    (by intro r hr; exact absurd hr (List.not_mem_nil r))
  exact ⟨h1, h2⟩

/-- Concrete affected places for the witnesses: the first place's
avoid-polygons request raises an `ApiError`, the second succeeds. -/
def witnessPlaces : List AffectedPlace :=
  [{ name := "Altenburg", x := 7, y := 50, normal := some ⟨1000⟩, flood := none },
   { name := "Insul 2", x := 7, y := 50, normal := some ⟨900⟩, flood := some ⟨1200⟩ }]

/-- Witness for `ahrtal_apiError_place_skipped` at the concrete run. -/
theorem ahrtal_apiError_place_skipped_witness :
    ("No route found for " ++ "Altenburg")
        ∈ (ahrtalRun 0 witnessPlaces initAhrtalState).printed ∧
    (∀ r ∈ (ahrtalRun 0 witnessPlaces initAhrtalState).normalRoutes, r.id ≠ 0) ∧
    (∀ r ∈ (ahrtalRun 0 witnessPlaces initAhrtalState).avoidingRoutes, r.id ≠ 0) := by
  exact ahrtal_apiError_place_skipped witnessPlaces 0 (by decide)
    (by intro q hq
        rcases List.mem_cons.mp hq with h | h
        · rw [h]; rfl
        · rw [List.mem_singleton.mp h]; rfl)
    rfl

lemma ahrtalStep_aligned (s : AhrtalState) (i : Nat) (p : AffectedPlace)
    (hid : s.normalRoutes.map RouteEntry.id = s.avoidingRoutes.map RouteEntry.id)
    (hname : s.normalRoutes.map RouteEntry.name = s.avoidingRoutes.map RouteEntry.name) :
    (ahrtalStep s i p).normalRoutes.map RouteEntry.id
        = (ahrtalStep s i p).avoidingRoutes.map RouteEntry.id ∧
    (ahrtalStep s i p).normalRoutes.map RouteEntry.name
        = (ahrtalStep s i p).avoidingRoutes.map RouteEntry.name := by
  unfold ahrtalStep
  by_cases hc : s.crashed
  · simpa [hc] using ⟨hid, hname⟩
  · cases hn : p.normal with
    | none => simpa [hc, hn] using ⟨hid, hname⟩
    | some nr =>
        cases hf : p.flood with
        | none => simpa [hc, hn, hf] using ⟨hid, hname⟩
        | some fr =>
            simp only [hc, if_false, hn, hf, Bool.false_eq_true, List.map_append,
              List.map_cons, List.map_nil]
            rw [hid, hname]
            exact ⟨rfl, rfl⟩

/-- Claim C9: throughout the Ahrtal routing loop, `normal_routes` and
`avoiding_routes` stay aligned: starting from any loop state in which
the two lists agree on place ids and names (in particular the empty
initial state), after processing any list of remaining places they
still agree entry by entry and have equal length — each iteration
appends one entry for the same place to both lists or to neither. -/
theorem ahrtal_route_lists_aligned (ps : List AffectedPlace) :
    ∀ i s,
    s.normalRoutes.map RouteEntry.id = s.avoidingRoutes.map RouteEntry.id →
    s.normalRoutes.map RouteEntry.name = s.avoidingRoutes.map RouteEntry.name →
    (ahrtalRun i ps s).normalRoutes.map RouteEntry.id
        = (ahrtalRun i ps s).avoidingRoutes.map RouteEntry.id ∧
    (ahrtalRun i ps s).normalRoutes.map RouteEntry.name
        = (ahrtalRun i ps s).avoidingRoutes.map RouteEntry.name ∧
    (ahrtalRun i ps s).normalRoutes.length
        = (ahrtalRun i ps s).avoidingRoutes.length := by
  induction ps with
  | nil =>
      intro i s hid hname
      refine ⟨hid, hname, ?_⟩
      have := congrArg List.length hid
      simpa [List.length_map] using this
  | cons p rest ih =>
      intro i s hid hname
      obtain ⟨hid', hname'⟩ := ahrtalStep_aligned s i p hid hname
      exact ih (i + 1) _ hid' hname'

/-- Witness for `ahrtal_route_lists_aligned` at the concrete run. -/
theorem ahrtal_route_lists_aligned_witness :
    (ahrtalRun 0 witnessPlaces initAhrtalState).normalRoutes.map RouteEntry.id
        = (ahrtalRun 0 witnessPlaces initAhrtalState).avoidingRoutes.map RouteEntry.id ∧
    (ahrtalRun 0 witnessPlaces initAhrtalState).normalRoutes.map RouteEntry.name
        = (ahrtalRun 0 witnessPlaces initAhrtalState).avoidingRoutes.map RouteEntry.name ∧
    (ahrtalRun 0 witnessPlaces initAhrtalState).normalRoutes.length
        = (ahrtalRun 0 witnessPlaces initAhrtalState).avoidingRoutes.length := by
  exact ahrtal_route_lists_aligned witnessPlaces 0 initAhrtalState rfl rfl

/-! ## ortools_pubcrawl.py — arc-cost callback for the solver

Lines 174–185: `distance_callback(from_index, to_index)` converts the
two routing-variable indices to node indices through
`manager.IndexToNode` and returns
`int(pubs_matrix['durations'][from_node][to_node])`; it is registered
via `RegisterTransitCallback` and installed with
`SetArcCostEvaluatorOfAllVehicles`.  Durations are rationals and
Python's `int()` truncates toward zero; out-of-range indexing would
raise, hence the `Option` result. -/

/-- Truncation toward zero, Python's `int()` on a number. -/
def pythonInt (q : ℚ) : ℤ :=
  if 0 ≤ q then q.floor else q.ceil

/-- The solver's index manager, as far as the callback uses it. -/
structure RoutingIndexManager where
  indexToNode : Nat → Nat

/-- The callback registered with the solver (`distance_callback`). -/
def distance_callback (manager : RoutingIndexManager) (durations : List (List ℚ))
    (from_index to_index : Nat) : Option ℤ :=
  let from_node := manager.indexToNode from_index
  let to_node := manager.indexToNode to_index
  (durations.get? from_node).bind fun row => (row.get? to_node).map pythonInt

/-- Claim C5: the input handed to the external solver is exactly the API
duration matrix: for every pair of valid node indices `(i, j)`, the
arc-cost callback returns the integer truncation of `durations[i][j]`
and nothing else — no other transformation is applied. -/
theorem distance_callback_is_truncated_matrix (manager : RoutingIndexManager)
    (durations : List (List ℚ)) (from_index to_index i j : Nat)
    (hfi : manager.indexToNode from_index = i)
    (hti : manager.indexToNode to_index = j)
    (hi : i < durations.length) (hj : j < (durations.get ⟨i, hi⟩).length) :
    distance_callback manager durations from_index to_index
      = some (pythonInt ((durations.get ⟨i, hi⟩).get ⟨j, hj⟩)) := by
  unfold distance_callback
  rw [hfi, hti]
  show (durations.get? i).bind (fun row => (row.get? j).map pythonInt)
      = some (pythonInt ((durations.get ⟨i, hi⟩).get ⟨j, hj⟩))
  rw [List.get?_eq_get hi, Option.some_bind, List.get?_eq_get hj]
  rfl

/-- Part of the 26×26 duration matrix, with fractional entries. -/
def witnessDurations : List (List ℚ) :=
  [[0, 251/2], [1237/10, 0]]

/-- Witness for `distance_callback_is_truncated_matrix`: with the
identity index manager, the callback on `(0, 1)` yields
`int(125.5) = 125`. -/
theorem distance_callback_witness :
    distance_callback ⟨fun n => n⟩ witnessDurations 0 1
      = some (pythonInt ((witnessDurations.get ⟨0, by decide⟩).get ⟨1, by decide⟩)) := by
  exact distance_callback_is_truncated_matrix ⟨fun n => n⟩ witnessDurations 0 1 0 1
    rfl rfl (by decide) (by decide)

/-! ## export_endpoint_centrality.py — graph for betweenness centrality

Lines 208–216: a `networkx.DiGraph` is built by
`g.add_edge(edge['fromId'], edge['toId'], weight=edge['weight'])` for
every edge of the export response, and handed to
`nx.edge_betweenness_centrality`.  `add_edge` inserts the directed edge
if absent and otherwise overwrites its attributes, so a later duplicate
`(fromId, toId)` pair overrides the earlier weight.  The graph is
modelled by its weighted-edge lookup function. -/

/-- One edge object of the `/export` response. -/
structure ExportEdge where
  fromId : Nat
  toId : Nat
  weight : ℚ
deriving DecidableEq

/-- `g.add_edge(e.fromId, e.toId, weight=e.weight)` on the lookup view
of the graph: inserts or overwrites the directed edge. -/
def addEdge (g : Nat × Nat → Option ℚ) (e : ExportEdge) : Nat × Nat → Option ℚ :=
  fun pr => if pr = (e.fromId, e.toId) then some e.weight else g pr

/-- The graph built from the export response, starting from the empty
`nx.DiGraph()`. -/
def buildDiGraph (es : List ExportEdge) : Nat × Nat → Option ℚ :=
  es.foldl addEdge fun _ => none

/-- Claim C6: the graph handed to `edge_betweenness_centrality`
contains, for every edge object of the export response, exactly one
directed edge `fromId → toId` carrying that edge's weight, with a
later-occurring duplicate pair overriding the earlier weight, and no
other edges: the lookup of `(u, v)` is the weight of the last response
edge with that pair, and `none` when no response edge has it. -/
theorem buildDiGraph_edges (es : List ExportEdge) (u v : Nat) :
    buildDiGraph es (u, v)
      = ((es.filter fun e => decide ((e.fromId, e.toId) = (u, v))).getLast?).map
          ExportEdge.weight := by
  induction es using List.reverseRecOn with
  | nil => rfl
  | append_singleton es e ih =>
      unfold buildDiGraph at *
      rw [List.foldl_append, List.foldl_cons, List.foldl_nil, List.filter_append]
      by_cases h : (e.fromId, e.toId) = (u, v)
      · have h1 : e.fromId = u := congrArg Prod.fst h
        have h2 : e.toId = v := congrArg Prod.snd h
        have hf : List.filter (fun e => decide ((e.fromId, e.toId) = (u, v))) [e] = [e] := by
          simp [List.filter_cons, h1, h2]
        rw [hf, List.getLast?_concat, addEdge, if_pos h.symm]
        rfl
      · have hf : List.filter (fun e => decide ((e.fromId, e.toId) = (u, v))) [e] = [] := by
          simp only [List.filter_cons, List.filter_nil]
          have : ¬ (e.fromId = u ∧ e.toId = v) := by
            intro ⟨h1, h2⟩
            exact h (by rw [h1, h2])
          simp [this]
        rw [hf, List.append_nil, addEdge, if_neg (fun hx => h hx.symm), ih]

/-! ## Apartment_Search.py — ranking by summed minimal durations

Lines 159–163: for each remaining apartment,
`shortest_sum = sum([min(cat['durations']) for cat in
apt['categories'].values()])`.  `min` of an empty list raises, so the
value is only computed when every category has a non-empty durations
list (the notebook ensures this only by manually deleting the one
apartment lacking a supermarket, line 105). -/

/-- One POI category of an apartment with the recorded route durations. -/
structure POICategory where
  name : String
  durations : List ℚ
deriving DecidableEq

/-- Python's `min` on a list: `none` (an exception) on the empty list. -/
def minOfList : List ℚ → Option ℚ
  | [] => none
  | x :: xs => some (xs.foldl min x)

/-- The list comprehension `[min(cat['durations']) for cat in …]`:
fails as soon as one category's durations list is empty. -/
def minsOf : List POICategory → Option (List ℚ)
  | [] => some []
  | c :: cs =>
      match minOfList c.durations, minsOf cs with
      | some m, some ms => some (m :: ms)
      | _, _ => none

/-- `shortest_sum` of an apartment's categories. -/
def shortest_sum (cats : List POICategory) : Option ℚ :=
  (minsOf cats).map List.sum

/-- Claim C7 counterexample: the apartment ranking value *is* computed
from already-received response data alone — on this concrete response
data (durations of the three categories) `shortest_sum` evaluates, as a
pure function, to 12.8 minutes' worth of seconds; any run over the same
data yields this same value, no further network call entering. -/
theorem shortest_sum_value_concrete :
    shortest_sum
      [{ name := "kindergarten", durations := [300, 120] },
       { name := "supermarket", durations := [200] },
       { name := "hairdresser", durations := [500, 448] }] = some 768 := by
  norm_num [shortest_sum, minsOf, minOfList, min_def]

/-- Claim C7 (amended): the apartment-ranking value is a deterministic
pure function of the already-received response data: two apartments
whose categories carry the same durations lists get the same
`shortest_sum`, with no dependence on anything else. -/
theorem shortest_sum_deterministic (c₁ c₂ : List POICategory)
    (h : c₁.map POICategory.durations = c₂.map POICategory.durations) :
    shortest_sum c₁ = shortest_sum c₂ := by
  unfold shortest_sum
  suffices hs : minsOf c₁ = minsOf c₂ by rw [hs]
  induction c₁ generalizing c₂ with
  | nil =>
      cases c₂ with
      | nil => rfl
      | cons d ds => exact absurd h (by simp)
  | cons c cs ih =>
      cases c₂ with
      | nil => exact absurd h (by simp)
      | cons d ds =>
          rw [List.map_cons, List.map_cons] at h
          obtain ⟨h1, h2⟩ := List.cons.injEq _ _ _ _ ▸ h
          rw [minsOf, minsOf, h1, ih ds h2]

/-- Witness for `shortest_sum_deterministic`: two category lists with
different names but identical durations data. -/
theorem shortest_sum_deterministic_witness :
    shortest_sum [{ name := "kindergarten", durations := [300, 120] }]
      = shortest_sum [{ name := "creche", durations := [300, 120] }] := by
  exact shortest_sum_deterministic _ _ rfl

/-- The property of being the minimum of a list. -/
def IsMinOf (m : ℚ) (l : List ℚ) : Prop :=
  m ∈ l ∧ ∀ x ∈ l, m ≤ x

lemma foldl_min_le_init (xs : List ℚ) : ∀ x : ℚ, xs.foldl min x ≤ x := by
  induction xs with
  | nil => intro x; exact le_refl x
  | cons y ys ih =>
      intro x
      exact le_trans (ih (min x y)) (min_le_left x y)

lemma foldl_min_le_mem (xs : List ℚ) :
    ∀ x y : ℚ, y ∈ xs → xs.foldl min x ≤ y := by
  induction xs with
  | nil => intro x y hy; exact absurd hy (List.not_mem_nil y)
  | cons z zs ih =>
      intro x y hy
      rcases List.mem_cons.mp hy with h | h
      · subst h
        exact le_trans (foldl_min_le_init zs (min x y)) (min_le_right x y)
      · exact ih (min x z) y h

lemma foldl_min_mem (xs : List ℚ) : ∀ x : ℚ, xs.foldl min x ∈ x :: xs := by
  induction xs with
  | nil => intro x; exact List.mem_singleton.mpr rfl
  | cons y ys ih =>
      intro x
      rcases List.mem_cons.mp (ih (min x y)) with h | h
      · rcases min_choice x y with hm | hm
        · exact List.mem_cons.mpr (Or.inl (h.trans hm))
        · exact List.mem_cons.mpr (Or.inr (List.mem_cons.mpr (Or.inl (h.trans hm))))
      · exact List.mem_cons.mpr (Or.inr (List.mem_cons.mpr (Or.inr h)))

lemma minOfList_spec (l : List ℚ) (m : ℚ) (h : minOfList l = some m) :
    IsMinOf m l := by
  cases l with
  | nil => exact absurd h (by simp [minOfList])
  | cons x xs =>
      have hm : xs.foldl min x = m := by
        simpa [minOfList] using h
      constructor
      · rw [← hm]
        exact foldl_min_mem xs x
      · intro y hy
        rw [← hm]
        rcases List.mem_cons.mp hy with h' | h'
        · subst h'
          exact foldl_min_le_init xs y
        · exact foldl_min_le_mem xs x y h'

lemma minsOf_none_of_empty :
    ∀ cats : List POICategory, (∃ c ∈ cats, c.durations = []) → minsOf cats = none := by
  intro cats
  induction cats with
  | nil =>
      intro ⟨c, hc, _⟩
      exact absurd hc (List.not_mem_nil c)
  | cons d ds ih =>
      intro ⟨c, hc, hemp⟩
      rcases List.mem_cons.mp hc with h | h
      · subst h
        rw [minsOf, hemp]
        rfl
      · rw [minsOf, ih ⟨c, h, hemp⟩]
        cases minOfList d.durations <;> rfl

lemma minsOf_all_nonempty :
    ∀ cats : List POICategory, (∀ c ∈ cats, c.durations ≠ []) →
    ∃ ms : List ℚ,
      List.Forall₂ (fun m c => IsMinOf m c.durations) ms cats ∧
      minsOf cats = some ms := by
  intro cats
  induction cats with
  | nil => exact fun _ => ⟨[], List.Forall₂.nil, rfl⟩
  | cons d ds ih =>
      intro hall
      obtain ⟨ms, hms, hmins⟩ := ih fun c hc => hall c (List.mem_cons_of_mem d hc)
      have hd : d.durations ≠ [] := hall d (List.mem_cons_self d ds)
      obtain ⟨x, xs, hxs⟩ := List.exists_cons_of_ne_nil hd
      have hmin : minOfList d.durations = some (xs.foldl min x) := by
        rw [hxs]; rfl
      refine ⟨xs.foldl min x :: ms,
        List.Forall₂.cons (minOfList_spec d.durations _ hmin) hms, ?_⟩
      rw [minsOf, hmin, hmins]

/-- Claim C10: the ranking step is defined exactly on apartments all of
whose categories have non-empty durations lists: if some category's
list is empty, taking its minimum fails and `shortest_sum` is not
computed; otherwise `shortest_sum` is the sum of a list of values, one
per category in order, each being the minimum duration of its
category. -/
theorem shortest_sum_defined_iff (cats : List POICategory) :
    ((∃ c ∈ cats, c.durations = []) → shortest_sum cats = none) ∧
    ((∀ c ∈ cats, c.durations ≠ []) →
      ∃ ms : List ℚ,
        List.Forall₂ (fun m c => IsMinOf m c.durations) ms cats ∧
        shortest_sum cats = some ms.sum) := by
  constructor
  · intro hex
    unfold shortest_sum
    rw [minsOf_none_of_empty cats hex]
    rfl
  · intro hall
    obtain ⟨ms, hms, hmins⟩ := minsOf_all_nonempty cats hall
    refine ⟨ms, hms, ?_⟩
    unfold shortest_sum
    rw [hmins]
    rfl

/-- Categories of an apartment that kept all three POI kinds. -/
def aptCatsFull : List POICategory :=
  [{ name := "kindergarten", durations := [300, 120] },
   { name := "supermarket", durations := [200] }]

/-- Categories of the second apartment: no supermarket in range. -/
def aptCatsEmpty : List POICategory :=
  [{ name := "supermarket", durations := [] }]

/-- Witness for `shortest_sum_defined_iff`: an apartment with an empty
supermarket category gets no value, one with non-empty categories gets
the sum of the minima (here 120 + 200). -/
theorem shortest_sum_defined_iff_witness :
    shortest_sum aptCatsEmpty = none ∧
    ∃ ms : List ℚ,
      List.Forall₂ (fun m c => IsMinOf m c.durations) ms aptCatsFull ∧
      shortest_sum aptCatsFull = some ms.sum := by
  constructor
  · exact (shortest_sum_defined_iff aptCatsEmpty).1
      ⟨{ name := "supermarket", durations := [] }, by simp [aptCatsEmpty], rfl⟩
  · exact (shortest_sum_defined_iff aptCatsFull).2
      (by
        intro c hc
        simp only [aptCatsFull, List.mem_cons, List.not_mem_nil, or_false] at hc
        rcases hc with h | h
        · rw [h]; simp
        · rw [h]; simp)

end ORSExamples
